import Mathlib

/-!
Verification development for the sheets batch-transfer pipeline
(`src/index.js`, with the near-duplicate variant `src/unnamed/part_001`).
The JavaScript code is shallowly embedded: remote API calls, sleeps and
throttles are reified as trace events; the fallible wrapped operation of
`retryOperation` is an oracle giving the outcome of each attempt;
spreadsheet cells are an inductive type distinguishing the JS values
`''` (empty string), `null`, `undefined`, other strings, and numbers.
File logging (`Logger`) is out of scope per the code's own peripheral role.
Definitions are stated first, followed by all theorems.
-/

/-- A spreadsheet cell as handled by the JS code: a string (possibly the
empty string `''`), a number, `null`, or `undefined`. -/
inductive Cell where
  | str (s : String)
  | num (n : Int)
  | null
  | undef
deriving DecidableEq, Repr

/-- A row is an ordered list of cells. -/
abbrev Row := List Cell

/-- The test `cell === '' || cell === null || cell === undefined` used in
`cleanData` (src/index.js lines 239 and 245). -/
def isEmptyCell : Cell → Bool
  | .str s => s == ""
  | .num _ => false
  | .null => true
  | .undef => true

/-- The per-cell substitution of `cleanData`'s map step
(src/index.js lines 244-249): an empty/null/undefined cell becomes the
number `0`, any other cell is kept. -/
def substCell (c : Cell) : Cell :=
  if isEmptyCell c then Cell.num 0 else c

/-- Embedding of `cleanData(data)` (src/index.js lines 234-253): return `[]`
for an empty input; drop every row with no non-empty cell
(`row.some(cell => cell !== '' && cell !== null && cell !== undefined)`);
then replace each empty/null/undefined cell of a surviving row with `0`.
The `part_001` variant (lines 158-162) uses `cell != null`, which in JS
covers exactly `null` and `undefined`, so both variants embed identically. -/
def cleanData (data : List Row) : List Row :=
  if data.isEmpty then []
  else
    (data.filter fun row => row.any fun c => !isEmptyCell c).map
      fun row => row.map substCell

/-- Trace events emitted by `retryOperation` (src/index.js lines 114-138):
a rate-limiter throttle, an invocation of the wrapped operation on a given
attempt number, or a backoff sleep of the given duration in milliseconds. -/
inductive REvent where
  | throttle
  | opCall (attempt : Nat)
  | sleep (ms : Nat)
deriving DecidableEq, Repr

/-- A JS value thrown out of `retryOperation`. The code throws the variable
`lastError`, which is either still `undefined` (never assigned) or the raw
error object of the most recent failed attempt. The constructor
`retryExhausted` is a spec-side value — the wrapped typed error the spec's
RetryExecutor contract describes — which the source never constructs; it
exists so the claim about error typing can be stated and compared. -/
inductive ThrownValue (E : Type) where
  | undef
  | rawError (e : E)
  | retryExhausted (cause : E)
deriving DecidableEq, Repr

/-- Loop body of `retryOperation` (src/index.js lines 117-135), structurally
recursive on the number of remaining loop iterations. `attempt` is the JS
loop counter, `lastErr` the current value of `lastError`. Each iteration
throttles then calls the operation; on success it returns; on failure of the
final remaining attempt it breaks and the raw last error is thrown; otherwise
it sleeps `min(1000 * 2^(attempt-1), 10000)` ms and retries. The oracle
`op k` gives the outcome of attempt `k`. -/
def retryGo {E A : Type} (op : Nat → Except E A) (lastErr : ThrownValue E)
    (attempt : Nat) : Nat → List REvent × Except (ThrownValue E) A
  | 0 => ([], Except.error lastErr)
  | remaining + 1 =>
    match op attempt with
    | .ok v => ([REvent.throttle, REvent.opCall attempt], Except.ok v)
    | .error err =>
      match remaining with
      | 0 => ([REvent.throttle, REvent.opCall attempt],
              Except.error (ThrownValue.rawError err))
      | m + 1 =>
        let rest := retryGo op (ThrownValue.rawError err) (attempt + 1) (m + 1)
        (REvent.throttle :: REvent.opCall attempt ::
           REvent.sleep (min (1000 * 2 ^ (attempt - 1)) 10000) :: rest.1,
         rest.2)

/-- Embedding of `retryOperation(operation, maxRetries)` (src/index.js lines
114-138; identically src/unnamed/part_001 lines 70-86): run the
`for (let attempt = 1; attempt <= maxRetries; attempt++)` loop, which
iterates `max(maxRetries, 0)` times, starting with `lastError` undefined.
Returns the emitted event trace and the JS outcome (returned value, or
thrown value). -/
def retryOperation {E A : Type} (op : Nat → Except E A) (maxRetries : Int) :
    List REvent × Except (ThrownValue E) A :=
  retryGo op ThrownValue.undef 1 maxRetries.toNat

/-- A remote write-path action issued against the destination spreadsheet:
a values.clear of the destination range, a values.update carrying rows, a
values.append carrying rows, or an explicit pacing sleep in milliseconds. -/
inductive WriteCall where
  | clear
  | update (rows : List Row)
  | append (rows : List Row)
  | pause (ms : Nat)
deriving DecidableEq, Repr

/-- Consecutive slices of at most `n` elements, as produced by the JS loop
`for (let i = 0; i < data.length; i += n) data.slice(i, i + n)`. Empty for
`n = 0` (where the JS loop would never terminate). -/
def chunkSlices {α : Type} (n : Nat) (l : List α) : List (List α) :=
  if _hn : n = 0 then []
  else if _hl : l.length = 0 then []
  else l.take n :: chunkSlices n (l.drop n)
termination_by l.length
decreasing_by
  have hl : 0 < l.length := Nat.pos_of_ne_zero _hl
  simpa [List.length_drop] using Nat.sub_lt hl (Nat.pos_of_ne_zero _hn)

/-- Recognizer for clear calls. -/
def isClear : WriteCall → Bool
  | .clear => true
  | _ => false

/-- Recognizer for update calls. -/
def isUpdate : WriteCall → Bool
  | .update _ => true
  | _ => false

/-- Recognizer for append calls. -/
def isAppend : WriteCall → Bool
  | .append _ => true
  | _ => false

/-- Recognizer for pacing sleeps. -/
def isPause : WriteCall → Bool
  | .pause _ => true
  | _ => false

/-- Recognizer for chunk-carrying write calls (update or append). -/
def isWriteCall (c : WriteCall) : Bool := isUpdate c || isAppend c

/-- The rows carried by a write call (empty for clear and pause). -/
def payload : WriteCall → List Row
  | .update rows => rows
  | .append rows => rows
  | _ => []

/-- All rows delivered by a call sequence, in issue order. -/
def writtenRows (calls : List WriteCall) : List Row :=
  (calls.map payload).flatten

/-- Embedding of `updateDestination` (src/index.js lines 303-319; identically
src/unnamed/part_001 lines 106-118): one clear of the destination range, then
one update carrying the whole dataset. -/
def updateDestination (data : List Row) : List WriteCall :=
  [WriteCall.clear, WriteCall.update data]

/-- The chunk loop body dispatch of src/index.js lines 281-299: the chunk at
offset `i = 0` is written with values.update, every later chunk with
values.append. -/
def chunkCalls : List (List Row) → List WriteCall
  | [] => []
  | c :: cs => WriteCall.update c :: cs.map WriteCall.append

/-- Appends of the remaining chunks in the src/unnamed/part_001 loop, each
followed by the explicit `await this.rateLimiter.sleep(1000)` of line 150. -/
def pacedAppends : List (List Row) → List WriteCall
  | [] => []
  | c :: cs => WriteCall.append c :: WriteCall.pause 1000 :: pacedAppends cs

/-- Embedding of `updateDestinationInChunks` (src/index.js lines 255-301):
for small data delegate to the clear-then-update path; otherwise clear the
destination once up front, then write consecutive slices of at most
`chunkSize` rows, the first via update and the rest via append. No pacing
sleep exists between chunk writes in this variant. -/
def IndexJs.updateDestinationInChunks (chunkSize : Nat) (data : List Row) :
    List WriteCall :=
  if data.length ≤ chunkSize then updateDestination data
  else WriteCall.clear :: chunkCalls (chunkSlices chunkSize data)

/-- Embedding of `updateDestinationInChunks` (src/unnamed/part_001 lines
120-156): same clear-then-chunk structure as the index.js variant, but after
every successful chunk write the loop sleeps 1000 ms
(`await this.rateLimiter.sleep(1000); // throttle between chunks`). -/
def Part001.updateDestinationInChunks (chunkSize : Nat) (data : List Row) :
    List WriteCall :=
  if data.length ≤ chunkSize then updateDestination data
  else
    WriteCall.clear ::
      match chunkSlices chunkSize data with
      | [] => []
      | c :: cs => WriteCall.update c :: WriteCall.pause 1000 :: pacedAppends cs

/-- Boolean check that every chunk-carrying write call in the sequence is
immediately followed by a 1000 ms pacing sleep. -/
def followedByPause1000 : List WriteCall → Bool
  | [] => true
  | c :: rest =>
    (if isWriteCall c then
       match rest with
       | WriteCall.pause 1000 :: _ => true
       | _ => false
     else true)
    && followedByPause1000 rest

/-- JS template-literal rendering of a possibly-undefined string value. -/
def jsStr : Option String → String
  | none => "undefined"
  | some s => s

/-- A configuration job as destructured in `processBatch`
(src/index.js line 191): source spreadsheet id, source range, destination
spreadsheet id, destination range. JS destructuring of a short array yields
`undefined` for missing positions, hence `Option String` fields. -/
structure Job where
  rId : Option String
  rRange : Option String
  dId : Option String
  dRange : Option String
deriving DecidableEq, Repr

/-- Build a `Job` from a raw configuration row, as
`const [rSpreadsheetId, rRange, dSpreadsheetId, dRange] = row` does. -/
def jobOfRow (row : List String) : Job :=
  ⟨row.get? 0, row.get? 1, row.get? 2, row.get? 3⟩

/-- The provenance tag of a job (src/index.js line 192). -/
def sourceUrl (j : Job) : String :=
  "https://docs.google.com/spreadsheets/d/" ++ jsStr j.rId

/-- A best-effort append of a `[timestamp, message]` row to a sheet's log
range, as performed by `logToSheet` (src/index.js lines 162-184); recorded
as an event with its target spreadsheet id and the message. -/
inductive LogEvent where
  | sheetAppend (spreadsheetId : Option String) (message : String)
deriving DecidableEq, Repr

/-- The observable outcome of processing jobs: contributed rows in order,
`processedCount` and `errorCount` increments, and sheet-log events. -/
structure BatchOutcome where
  rows : List Row
  processed : Nat
  errors : Nat
  logs : List LogEvent
deriving DecidableEq, Repr

/-- The neutral outcome. -/
def BatchOutcome.empty : BatchOutcome := ⟨[], 0, 0, []⟩

/-- Sequential combination of outcomes (concatenate rows and logs, add
counters). -/
def BatchOutcome.merge (a b : BatchOutcome) : BatchOutcome :=
  ⟨a.rows ++ b.rows, a.processed + b.processed, a.errors + b.errors,
   a.logs ++ b.logs⟩

/-- Per-job body of `processBatch` (src/index.js lines 190-218). The oracle
`fetch` gives the settled outcome of `processSheetData` for the job (its
value after retries, or the error after retry exhaustion). On error the job
contributes no rows, increments `errorCount` by one and logs the error
message to its own destination spreadsheet; on an empty fetch it contributes
nothing; otherwise each fetched row gets the provenance URL appended as a
trailing cell and `processedCount` increments. -/
def processJob (fetch : Job → Except String (List Row)) (j : Job) :
    BatchOutcome :=
  match fetch j with
  | .error e => ⟨[], 0, 1, [LogEvent.sheetAppend j.dId e]⟩
  | .ok rData =>
    if rData.length = 0 then BatchOutcome.empty
    else ⟨rData.map fun r => r ++ [Cell.str (sourceUrl j)], 1, 0, []⟩

/-- Embedding of `processBatch` (src/index.js lines 186-232): every job of
the batch is processed (each job's rejection is caught inside its own task,
so `Promise.allSettled` yields only fulfilled results), and the fulfilled
per-job row lists are concatenated in the listed job order. -/
def processBatch (fetch : Job → Except String (List Row)) :
    List Job → BatchOutcome
  | [] => BatchOutcome.empty
  | j :: rest => (processJob fetch j).merge (processBatch fetch rest)

/-- The batch loop of `run` (src/index.js lines 343-357): slice the job list
into consecutive batches of `batchSize`, process them sequentially, and
accumulate rows, counters and log events. -/
def runBatches (fetch : Job → Except String (List Row)) (jobs : List Job)
    (batchSize : Nat) : BatchOutcome :=
  (chunkSlices batchSize jobs).foldl
    (fun acc b => acc.merge (processBatch fetch b)) BatchOutcome.empty

/-- A concrete healthy job used by witnesses. -/
def jobA : Job := ⟨some "a", some "A1:B2", some "d", some "A2:B"⟩

/-- A concrete job whose fetch always fails, used by witnesses. -/
def jobBad : Job := ⟨some "bad", some "A1:B2", some "dlog", some "A2:B"⟩

/-- A concrete fetch oracle: the job with source id "bad" fails with "boom",
every other job yields one single-cell row. -/
def fetchW : Job → Except String (List Row) := fun j =>
  if j.rId = some "bad" then Except.error "boom"
  else Except.ok [[Cell.num 7]]

/-- Observable outcome of one orchestrator run on the happy path: the
destination (spreadsheet id, range) chosen for the aggregate write (none
when there were no configuration rows and no write happens), the write
calls issued, the cleaned final dataset, the counters, and the sheet-log
events. -/
structure RunResult where
  writeTarget : Option (Option String × Option String)
  writeCalls : List WriteCall
  finalRows : List Row
  processed : Nat
  errors : Nat
  logs : List LogEvent
deriving Repr

/-- Embedding of the data path of `run` (src/index.js lines 328-390) with
every remote write succeeding: with no configuration rows the run warns and
returns without writing; otherwise the configuration rows become jobs, are
processed in batches of `batchSize`, the aggregate is cleaned, and the
result is written to the destination taken from the third and fourth
columns (`lastRow[2]`, `lastRow[3]`) of the last configuration row — via
the chunked path when the cleaned dataset exceeds `chunkSize`, else via the
single-shot path — followed by a best-effort "Done" log append to that
destination. -/
def IndexJs.run (fetch : Job → Except String (List Row))
    (configRows : List (List String)) (batchSize chunkSize : Nat) :
    RunResult :=
  match configRows.getLast? with
  | none => ⟨none, [], [], 0, 0, []⟩
  | some lastRow =>
    let out := runBatches fetch (configRows.map jobOfRow) batchSize
    let finalData := cleanData out.rows
    let calls :=
      if chunkSize < finalData.length then
        IndexJs.updateDestinationInChunks chunkSize finalData
      else updateDestination finalData
    ⟨some (lastRow.get? 2, lastRow.get? 3), calls, finalData, out.processed,
      out.errors, out.logs ++ [LogEvent.sheetAppend (lastRow.get? 2) "Done"]⟩

/-- Destination selection of the src/unnamed/part_001 `run` (lines 200 and
212): with no configuration rows the run returns without writing; otherwise
`const [,,,, lastDestSheet, lastDestRange] = rows[rows.length - 1]`
destructures positions 4 and 5 of the last configuration row as the write
target (undefined for a four-column configuration row). -/
def Part001.runWriteTarget (configRows : List (List String)) :
    Option (Option String × Option String) :=
  match configRows.getLast? with
  | none => none
  | some lastRow => some (lastRow.get? 4, lastRow.get? 5)

/-- The initial empty-input guard of `cleanData` is redundant: the
filter/map pipeline already sends `[]` to `[]`. -/
theorem cleanData_eq (data : List Row) :
    cleanData data =
      (data.filter fun row => row.any fun c => !isEmptyCell c).map
        (fun row => row.map substCell) := by
  cases data <;> simp [cleanData]

/-- Substituted cells are never empty/null/undefined. -/
theorem isEmptyCell_substCell (c : Cell) : isEmptyCell (substCell c) = false := by
  unfold substCell
  by_cases h : isEmptyCell c = true
  · rw [if_pos h]; rfl
  · rw [if_neg h]; simpa using h

/-- Substitution fixes cells that are already non-empty. -/
theorem substCell_of_not_empty {c : Cell} (h : isEmptyCell c = false) :
    substCell c = c := by
  simp [substCell, h]

/-- Every cell of every row returned by `cleanData` is non-empty. -/
theorem cleanData_cells_not_empty (data : List Row) :
    ∀ row ∈ cleanData data, ∀ c ∈ row, isEmptyCell c = false := by
  intro row hrow c hc
  rw [cleanData_eq] at hrow
  obtain ⟨r₀, _, rfl⟩ := List.mem_map.mp hrow
  obtain ⟨c₀, _, rfl⟩ := List.mem_map.mp hc
  exact isEmptyCell_substCell c₀

/-- C4: `cleanData` never returns a row containing an empty-string, null, or
undefined cell; every returned row is the cell-wise substitution of an input
row that had at least one non-empty cell (so no entirely-empty input row
survives); and cleaning an empty input yields the empty result. -/
theorem cleanData_no_empty_cells (data : List Row) :
    (∀ row ∈ cleanData data, ∀ c ∈ row, isEmptyCell c = false)
    ∧ (∀ row ∈ cleanData data, ∃ r₀ ∈ data,
        (r₀.any fun c => !isEmptyCell c) = true ∧ row = r₀.map substCell)
    ∧ cleanData ([] : List Row) = [] := by
  refine ⟨cleanData_cells_not_empty data, ?_, rfl⟩
  intro row hrow
  rw [cleanData_eq] at hrow
  obtain ⟨r₀, hr₀, rfl⟩ := List.mem_map.mp hrow
  exact ⟨r₀, (List.mem_filter.mp hr₀).1, (List.mem_filter.mp hr₀).2, rfl⟩

/-- C9: `cleanData` is idempotent — cleaning an already-cleaned row set
changes nothing. -/
theorem cleanData_idempotent (data : List Row) :
    cleanData (cleanData data) = cleanData data := by
  conv_lhs => rw [cleanData_eq]
  have hfilter :
      (cleanData data).filter (fun row => row.any fun c => !isEmptyCell c)
        = cleanData data := by
    apply List.filter_eq_self.mpr
    intro row hrow
    rw [cleanData_eq] at hrow
    obtain ⟨r₀, hr₀, rfl⟩ := List.mem_map.mp hrow
    obtain ⟨c₀, hc₀, hcne⟩ := List.any_eq_true.mp (List.mem_filter.mp hr₀).2
    apply List.any_eq_true.mpr
    exact ⟨substCell c₀, List.mem_map_of_mem _ hc₀, by
      simp [isEmptyCell_substCell]⟩
  rw [hfilter]
  have hid : ∀ row ∈ cleanData data, row.map substCell = id row := by
    intro row hrow
    have hcells := cleanData_cells_not_empty data row hrow
    calc row.map substCell
        = row.map id :=
          List.map_congr_left fun c hc => substCell_of_not_empty (hcells c hc)
      _ = row := List.map_id row
  calc (cleanData data).map (fun row => row.map substCell)
      = (cleanData data).map id := List.map_congr_left hid
    _ = cleanData data := List.map_id _

/-- C3: with an operation failing on every attempt and `maxRetries = 3`, the
trace shows exactly three throttled invocations (attempts 1, 2, 3 — never a
fourth), with backoff sleeps of `min(1000*2^0, 10000) = 1000` ms after
attempt 1 and `min(1000*2^1, 10000) = 2000` ms after attempt 2, no sleep
after the final attempt, and the call then raises. -/
theorem retryOperation_always_fail_three {E A : Type} (e : Nat → E) :
    retryOperation (A := A) (fun k => Except.error (e k)) 3 =
      ([REvent.throttle, REvent.opCall 1, REvent.sleep 1000,
        REvent.throttle, REvent.opCall 2, REvent.sleep 2000,
        REvent.throttle, REvent.opCall 3],
       Except.error (ThrownValue.rawError (e 3))) := rfl

/-- C10: with `maxRetries ≤ 0` the loop body never runs — the trace is empty
(zero throttles, zero operation invocations, zero sleeps) and the thrown
value is `undefined`, since `lastError` was never assigned. -/
theorem retryOperation_nonpositive_max {E A : Type} (op : Nat → Except E A)
    (maxRetries : Int) (h : maxRetries ≤ 0) :
    retryOperation op maxRetries = ([], Except.error ThrownValue.undef) := by
  unfold retryOperation
  rw [Int.toNat_of_nonpos h]
  rfl

/-- Witness for C10 at `maxRetries = -2` with an operation that would
succeed: it is still never invoked and `undefined` is thrown. -/
theorem retryOperation_nonpositive_max_witness :
    (-2 : Int) ≤ 0 ∧
      retryOperation (E := Nat) (fun k => Except.ok k) (-2)
        = ([], Except.error ThrownValue.undef) :=
  ⟨by decide, retryOperation_nonpositive_max _ _ (by decide)⟩

/-- When the operation fails on every attempt, the retry loop's outcome is
the raw error of attempt `attempt + remaining - 1` (the last one tried). -/
theorem retryGo_all_fail {E A : Type} (e : Nat → E) :
    ∀ remaining attempt lastErr, 0 < remaining →
      (retryGo (A := A) (fun k => Except.error (e k)) lastErr attempt remaining).2
        = Except.error (ThrownValue.rawError (e (attempt + remaining - 1))) := by
  intro remaining
  induction remaining with
  | zero => intro _ _ h; exact absurd h (by decide)
  | succ m ih =>
    intro attempt lastErr _
    cases m with
    | zero => rfl
    | succ m' =>
      have hrec := ih (attempt + 1) (ThrownValue.rawError (e attempt))
        (Nat.succ_pos m')
      calc (retryGo (A := A) (fun k => Except.error (e k)) lastErr attempt
              (m' + 1 + 1)).2
          = (retryGo (A := A) (fun k => Except.error (e k))
              (ThrownValue.rawError (e attempt)) (attempt + 1) (m' + 1)).2 := rfl
        _ = Except.error (ThrownValue.rawError (e (attempt + 1 + (m' + 1) - 1))) :=
            hrec
        _ = Except.error (ThrownValue.rawError (e (attempt + (m' + 1 + 1) - 1))) := by
            have harg : attempt + 1 + (m' + 1) - 1 = attempt + (m' + 1 + 1) - 1 := by
              omega
            rw [harg]

/-- C7 counterexample: with an always-failing operation and
`maxRetries = 3`, `retryOperation` propagates the raw underlying error of
the last attempt (`throw lastError`), not a wrapped
RemoteOperationFailure/RetryExhausted value carrying it as a cause. -/
theorem retryOperation_raw_error_counterexample :
    (retryOperation (A := Unit) (fun _ => Except.error "boom") 3).2
        = Except.error (ThrownValue.rawError "boom")
    ∧ (retryOperation (A := Unit) (fun _ => Except.error "boom") 3).2
        ≠ Except.error (ThrownValue.retryExhausted "boom") := by
  refine ⟨rfl, ?_⟩
  rw [show (retryOperation (A := Unit) (fun _ => Except.error "boom") 3).2
        = Except.error (ThrownValue.rawError "boom") from rfl]
  simp

/-- C7 amended: when every attempt fails and at least one attempt is made,
the value `retryOperation` propagates is the raw underlying error of the
final attempt itself — no wrapper type is ever constructed. -/
theorem retryOperation_propagates_raw_last_error {E A : Type} (e : Nat → E)
    (maxRetries : Int) (h : 1 ≤ maxRetries) :
    (retryOperation (A := A) (fun k => Except.error (e k)) maxRetries).2
      = Except.error (ThrownValue.rawError (e maxRetries.toNat)) := by
  unfold retryOperation
  have hpos : 0 < maxRetries.toNat := by omega
  rw [retryGo_all_fail e maxRetries.toNat 1 ThrownValue.undef hpos]
  have harg : 1 + maxRetries.toNat - 1 = maxRetries.toNat := by omega
  rw [harg]

/-- Witness for the amended C7 at `maxRetries = 2`: the propagated value is
the raw error produced by attempt 2. -/
theorem retryOperation_propagates_raw_last_error_witness :
    (1 : Int) ≤ 2 ∧
      (retryOperation (A := Unit) (fun k => Except.error k) 2).2
        = Except.error (ThrownValue.rawError 2) :=
  ⟨by decide, retryOperation_propagates_raw_last_error (fun k => k) 2 (by decide)⟩

/-- Concatenating the slices restores the original list. -/
theorem chunkSlices_flatten {α : Type} (n : Nat) (hn : 0 < n) (l : List α) :
    (chunkSlices n l).flatten = l := by
  rw [chunkSlices, dif_neg (by omega : ¬n = 0)]
  by_cases hl : l.length = 0
  · rw [dif_pos hl]
    rw [List.length_eq_zero] at hl
    simp [hl]
  · rw [dif_neg hl, List.flatten_cons, chunkSlices_flatten n hn (l.drop n)]
    exact List.take_append_drop n l
termination_by l.length
decreasing_by
  have hlp : 0 < l.length := Nat.pos_of_ne_zero hl
  simpa [List.length_drop] using Nat.sub_lt hlp hn

/-- Every slice holds at most `n` elements. -/
theorem chunkSlices_size_le {α : Type} (n : Nat) (l : List α) :
    ∀ c ∈ chunkSlices n l, c.length ≤ n := by
  rw [chunkSlices]
  by_cases hn : n = 0
  · simp [dif_pos hn]
  · rw [dif_neg hn]
    by_cases hl : l.length = 0
    · simp [dif_pos hl]
    · rw [dif_neg hl]
      intro c hc
      rcases List.mem_cons.mp hc with rfl | hc
      · exact List.length_take_le n l
      · exact chunkSlices_size_le n (l.drop n) c hc
termination_by l.length
decreasing_by
  have hlp : 0 < l.length := Nat.pos_of_ne_zero hl
  simpa [List.length_drop] using Nat.sub_lt hlp (Nat.pos_of_ne_zero hn)

/-- The number of slices is the ceiling of `l.length / n`. -/
theorem chunkSlices_length {α : Type} (n : Nat) (hn : 0 < n) (l : List α) :
    (chunkSlices n l).length = (l.length + n - 1) / n := by
  rw [chunkSlices, dif_neg (by omega : ¬n = 0)]
  by_cases hl : l.length = 0
  · rw [dif_pos hl, hl]
    have h0 : (0 + n - 1) / n = 0 := Nat.div_eq_of_lt (by omega)
    rw [h0]
    rfl
  · rw [dif_neg hl, List.length_cons, chunkSlices_length n hn (l.drop n),
      List.length_drop]
    have hlp : 0 < l.length := Nat.pos_of_ne_zero hl
    by_cases hle : l.length ≤ n
    · have h1 : l.length - n = 0 := by omega
      have h2 : (0 + n - 1) / n = 0 := Nat.div_eq_of_lt (by omega)
      have h3 : (l.length + n - 1) / n = 1 := by
        apply Nat.div_eq_of_lt_le (by omega) (by omega)
      rw [h1, h2, h3]
    · have h1 : l.length - n + n - 1 = l.length - 1 := by omega
      have h2 : l.length + n - 1 = l.length - 1 + n := by omega
      rw [h1, h2, Nat.add_div_right _ hn]
termination_by l.length
decreasing_by
  have hlp : 0 < l.length := Nat.pos_of_ne_zero hl
  simpa [List.length_drop] using Nat.sub_lt hlp hn

/-- Closed form of the index.js chunked path in the genuinely chunked case. -/
theorem IndexJs.updateDestinationInChunks_chunked_eq (cs : Nat) (data : List Row)
    (h0 : 0 < cs) (h1 : cs < data.length) :
    IndexJs.updateDestinationInChunks cs data
      = WriteCall.clear :: WriteCall.update (data.take cs)
          :: (chunkSlices cs (data.drop cs)).map WriteCall.append := by
  have hslices : chunkSlices cs data
      = data.take cs :: chunkSlices cs (data.drop cs) := by
    rw [chunkSlices, dif_neg (by omega : ¬cs = 0),
      dif_neg (by omega : ¬data.length = 0)]
  rw [IndexJs.updateDestinationInChunks, if_neg (by omega : ¬data.length ≤ cs),
    hslices]
  rfl

/-- Closed form of the part_001 chunked path in the genuinely chunked case. -/
theorem Part001.updateDestinationInChunks_paced_eq (cs : Nat) (data : List Row)
    (h0 : 0 < cs) (h1 : cs < data.length) :
    Part001.updateDestinationInChunks cs data
      = WriteCall.clear :: WriteCall.update (data.take cs)
          :: WriteCall.pause 1000
          :: pacedAppends (chunkSlices cs (data.drop cs)) := by
  have hslices : chunkSlices cs data
      = data.take cs :: chunkSlices cs (data.drop cs) := by
    rw [chunkSlices, dif_neg (by omega : ¬cs = 0),
      dif_neg (by omega : ¬data.length = 0)]
  rw [Part001.updateDestinationInChunks, if_neg (by omega : ¬data.length ≤ cs),
    hslices]

/-- The index.js write path never emits a pacing sleep, chunked or not. -/
theorem IndexJs.no_pause (cs : Nat) (data : List Row) :
    (IndexJs.updateDestinationInChunks cs data).countP isPause = 0 := by
  rw [IndexJs.updateDestinationInChunks]
  by_cases h : data.length ≤ cs
  · rw [if_pos h]; rfl
  · rw [if_neg h]
    cases hs : chunkSlices cs data with
    | nil => rfl
    | cons c rest =>
      simp only [chunkCalls, List.countP_cons, List.countP_map]
      have : (rest.countP (isPause ∘ WriteCall.append)) = 0 :=
        List.countP_eq_zero.mpr fun a _ => by simp [Function.comp, isPause]
      simp [this, isPause]

/-- C1: for `data.length > chunkSize` (with a positive chunk size, as
configured), the chunked write path issues exactly one clear up front, then
one update carrying the first chunk, then `ceil(len/chunkSize) - 1` appends
carrying the remaining chunks in order; every chunk holds at most
`chunkSize` rows and the concatenation of the chunks in issue order is
exactly the input row set. -/
theorem updateDestinationInChunks_shape (cs : Nat) (data : List Row)
    (h0 : 0 < cs) (h1 : cs < data.length) :
    (IndexJs.updateDestinationInChunks cs data
        = WriteCall.clear :: WriteCall.update (data.take cs)
            :: (chunkSlices cs (data.drop cs)).map WriteCall.append)
    ∧ (IndexJs.updateDestinationInChunks cs data).countP isClear = 1
    ∧ (IndexJs.updateDestinationInChunks cs data).countP isUpdate = 1
    ∧ (IndexJs.updateDestinationInChunks cs data).countP isAppend
        = (data.length + cs - 1) / cs - 1
    ∧ (∀ c ∈ IndexJs.updateDestinationInChunks cs data, (payload c).length ≤ cs)
    ∧ writtenRows (IndexJs.updateDestinationInChunks cs data) = data := by
  have hslices : chunkSlices cs data
      = data.take cs :: chunkSlices cs (data.drop cs) := by
    rw [chunkSlices, dif_neg (by omega : ¬cs = 0),
      dif_neg (by omega : ¬data.length = 0)]
  have hshape := IndexJs.updateDestinationInChunks_chunked_eq cs data h0 h1
  refine ⟨hshape, ?_, ?_, ?_, ?_, ?_⟩
  · rw [hshape]
    simp only [List.countP_cons, List.countP_map]
    have hz : (chunkSlices cs (data.drop cs)).countP (isClear ∘ WriteCall.append)
        = 0 :=
      List.countP_eq_zero.mpr fun a _ => by simp [Function.comp, isClear]
    simp [hz, isClear]
  · rw [hshape]
    simp only [List.countP_cons, List.countP_map]
    have hz : (chunkSlices cs (data.drop cs)).countP (isUpdate ∘ WriteCall.append)
        = 0 :=
      List.countP_eq_zero.mpr fun a _ => by simp [Function.comp, isUpdate]
    simp [hz, isUpdate]
  · rw [hshape]
    have hall : ((chunkSlices cs (data.drop cs)).map WriteCall.append).countP
        isAppend = (chunkSlices cs (data.drop cs)).length := by
      have hmem : ∀ a ∈ (chunkSlices cs (data.drop cs)).map WriteCall.append,
          isAppend a = true := by
        intro a ha
        obtain ⟨r, _, rfl⟩ := List.mem_map.mp ha
        rfl
      rw [List.countP_eq_length.mpr hmem, List.length_map]
    have hlen := chunkSlices_length cs h0 data
    rw [hslices] at hlen
    simp only [List.length_cons] at hlen
    simp only [List.countP_cons, hall, isAppend]
    simp only [Bool.false_eq_true, if_false, Nat.add_zero]
    omega
  · rw [hshape]
    intro c hc
    rcases List.mem_cons.mp hc with rfl | hc
    · simp [payload]
    rcases List.mem_cons.mp hc with rfl | hc
    · simp [payload]
    obtain ⟨r, hr, rfl⟩ := List.mem_map.mp hc
    simpa [payload] using chunkSlices_size_le cs (data.drop cs) r hr
  · rw [hshape]
    have hflat := chunkSlices_flatten cs h0 data
    rw [hslices, List.flatten_cons] at hflat
    have hmap : (chunkSlices cs (data.drop cs)).map (payload ∘ WriteCall.append)
        = chunkSlices cs (data.drop cs) := by
      have hid : ∀ r ∈ chunkSlices cs (data.drop cs),
          (payload ∘ WriteCall.append) r = id r := fun r _ => rfl
      rw [List.map_congr_left hid, List.map_id]
    simpa [writtenRows, payload, List.map_map, hmap] using hflat

/-- Witness for C1 at `chunkSize = 1` and a two-row dataset. -/
theorem updateDestinationInChunks_shape_witness :
    (0 < 1 ∧ 1 < ([[Cell.num 1], [Cell.num 2]] : List Row).length)
    ∧ ((IndexJs.updateDestinationInChunks 1 [[Cell.num 1], [Cell.num 2]]
        = WriteCall.clear
            :: WriteCall.update (([[Cell.num 1], [Cell.num 2]] : List Row).take 1)
            :: (chunkSlices 1 (([[Cell.num 1], [Cell.num 2]] : List Row).drop 1)).map
                WriteCall.append)
    ∧ (IndexJs.updateDestinationInChunks 1 [[Cell.num 1], [Cell.num 2]]).countP
        isClear = 1
    ∧ (IndexJs.updateDestinationInChunks 1 [[Cell.num 1], [Cell.num 2]]).countP
        isUpdate = 1
    ∧ (IndexJs.updateDestinationInChunks 1 [[Cell.num 1], [Cell.num 2]]).countP
        isAppend
        = (([[Cell.num 1], [Cell.num 2]] : List Row).length + 1 - 1) / 1 - 1
    ∧ (∀ c ∈ IndexJs.updateDestinationInChunks 1 [[Cell.num 1], [Cell.num 2]],
        (payload c).length ≤ 1)
    ∧ writtenRows (IndexJs.updateDestinationInChunks 1 [[Cell.num 1], [Cell.num 2]])
        = [[Cell.num 1], [Cell.num 2]]) :=
  ⟨⟨by decide, by decide⟩,
    updateDestinationInChunks_shape 1 [[Cell.num 1], [Cell.num 2]]
      (by decide) (by decide)⟩

/-- In the paced append sequence every append is immediately followed by the
1000 ms pacing sleep. -/
theorem followedByPause1000_pacedAppends (slices : List (List Row)) :
    followedByPause1000 (pacedAppends slices) = true := by
  induction slices with
  | nil => rfl
  | cons c cs ih =>
    simp only [pacedAppends, followedByPause1000, isWriteCall, isUpdate,
      isAppend, isPause]
    simpa using ih

/-- C6 counterexample: in the index.js chunked write path (here at
`chunkSize = 1` with a two-row dataset, giving two chunk writes) the emitted
call sequence contains no pacing delay at all — zero pause events — so no
pacing delay separates the successive chunk writes. -/
theorem chunk_pacing_counterexample :
    (IndexJs.updateDestinationInChunks 1 [[Cell.num 1], [Cell.num 2]]).countP
        isPause = 0
    ∧ 2 ≤ (IndexJs.updateDestinationInChunks 1 [[Cell.num 1], [Cell.num 2]]).countP
        isWriteCall := by
  constructor
  · exact IndexJs.no_pause 1 [[Cell.num 1], [Cell.num 2]]
  · have hcs : chunkSlices 1 (([[Cell.num 1], [Cell.num 2]] : List Row).drop 1)
        = [[[Cell.num 2]]] := by
      simp [chunkSlices]
    rw [IndexJs.updateDestinationInChunks_chunked_eq 1 [[Cell.num 1], [Cell.num 2]]
      (by decide) (by decide), hcs]
    decide

/-- C6 amended: only the part_001 variant paces between chunk writes — there,
a fixed 1000 ms sleep immediately follows every successful chunk write
(including the final one); the index.js variant's chunked path emits no
pacing delay at all between its chunk writes. -/
theorem chunk_pacing_amended (cs : Nat) (data : List Row)
    (h0 : 0 < cs) (h1 : cs < data.length) :
    (IndexJs.updateDestinationInChunks cs data).countP isPause = 0
    ∧ followedByPause1000 (Part001.updateDestinationInChunks cs data) = true := by
  refine ⟨IndexJs.no_pause cs data, ?_⟩
  rw [Part001.updateDestinationInChunks_paced_eq cs data h0 h1]
  simp only [followedByPause1000, isWriteCall, isUpdate, isAppend, isPause]
  simpa using followedByPause1000_pacedAppends (chunkSlices cs (data.drop cs))

/-- Witness for the amended C6 at `chunkSize = 1` and a two-row dataset. -/
theorem chunk_pacing_amended_witness :
    (0 < 1 ∧ 1 < ([[Cell.num 1], [Cell.num 2]] : List Row).length)
    ∧ ((IndexJs.updateDestinationInChunks 1 [[Cell.num 1], [Cell.num 2]]).countP
          isPause = 0
    ∧ followedByPause1000
        (Part001.updateDestinationInChunks 1 [[Cell.num 1], [Cell.num 2]])
        = true) :=
  ⟨⟨by decide, by decide⟩,
    chunk_pacing_amended 1 [[Cell.num 1], [Cell.num 2]] (by decide) (by decide)⟩

/-- Merging with the neutral outcome on the left. -/
theorem BatchOutcome.empty_merge (a : BatchOutcome) :
    BatchOutcome.empty.merge a = a := by
  cases a with
  | mk r p e l => simp [BatchOutcome.merge, BatchOutcome.empty]

/-- Merging with the neutral outcome on the right. -/
theorem BatchOutcome.merge_empty (a : BatchOutcome) :
    a.merge BatchOutcome.empty = a := by
  cases a with
  | mk r p e l => simp [BatchOutcome.merge, BatchOutcome.empty]

/-- Merging outcomes is associative. -/
theorem BatchOutcome.merge_assoc (a b c : BatchOutcome) :
    (a.merge b).merge c = a.merge (b.merge c) := by
  simp [BatchOutcome.merge, List.append_assoc, Nat.add_assoc]

/-- Processing a concatenation of job lists merges the outcomes. -/
theorem processBatch_append (fetch : Job → Except String (List Row))
    (l₁ l₂ : List Job) :
    processBatch fetch (l₁ ++ l₂)
      = (processBatch fetch l₁).merge (processBatch fetch l₂) := by
  induction l₁ with
  | nil => simp [processBatch, BatchOutcome.empty_merge]
  | cons j rest ih => simp [processBatch, ih, BatchOutcome.merge_assoc]

/-- The batch fold merges the outcome of all jobs in order. -/
theorem foldl_merge_processBatch (fetch : Job → Except String (List Row))
    (ls : List (List Job)) (acc : BatchOutcome) :
    ls.foldl (fun a b => a.merge (processBatch fetch b)) acc
      = acc.merge (processBatch fetch ls.flatten) := by
  induction ls generalizing acc with
  | nil => simp [processBatch, BatchOutcome.merge_empty]
  | cons b bs ih =>
    simp [List.foldl_cons, ih, List.flatten_cons, processBatch_append,
      BatchOutcome.merge_assoc]

/-- Splitting the job list into batches does not change the aggregate
outcome: batch processing equals processing all jobs in order. -/
theorem runBatches_eq (fetch : Job → Except String (List Row))
    (jobs : List Job) (batchSize : Nat) (h0 : 0 < batchSize) :
    runBatches fetch jobs batchSize = processBatch fetch jobs := by
  unfold runBatches
  rw [foldl_merge_processBatch, chunkSlices_flatten batchSize h0,
    BatchOutcome.empty_merge]

/-- The aggregate rows are the per-job contributions concatenated in job
order. -/
theorem processBatch_rows (fetch : Job → Except String (List Row))
    (l : List Job) :
    (processBatch fetch l).rows
      = (l.map fun i => (processJob fetch i).rows).flatten := by
  induction l with
  | nil => rfl
  | cons j rest ih => simp [processBatch, BatchOutcome.merge, ih]

/-- The aggregate error count is the sum of the per-job error counts. -/
theorem processBatch_errors (fetch : Job → Except String (List Row))
    (l : List Job) :
    (processBatch fetch l).errors
      = (l.map fun i => (processJob fetch i).errors).sum := by
  induction l with
  | nil => rfl
  | cons j rest ih => simp [processBatch, BatchOutcome.merge, ih]

/-- C2: a job whose fetch exhausts retries contributes zero rows, increments
`errorCount` by exactly one, and triggers one best-effort append of the
error message to its own destination spreadsheet's log; and the aggregate of
the whole batched run is the order-preserving combination of every job's own
contribution — so the failure changes nothing for sibling jobs in the same
batch or any later batch, and the run proceeds. -/
theorem processBatch_failed_job_isolated
    (fetch : Job → Except String (List Row)) (jobs : List Job)
    (batchSize : Nat) (h0 : 0 < batchSize) (j : Job) (hj : j ∈ jobs)
    (e : String) (hf : fetch j = Except.error e) :
    (processJob fetch j).rows = []
    ∧ (processJob fetch j).errors = 1
    ∧ (processJob fetch j).logs = [LogEvent.sheetAppend j.dId e]
    ∧ (runBatches fetch jobs batchSize).rows
        = (jobs.map fun i => (processJob fetch i).rows).flatten
    ∧ (runBatches fetch jobs batchSize).errors
        = (jobs.map fun i => (processJob fetch i).errors).sum := by
  refine ⟨?_, ?_, ?_, ?_, ?_⟩
  · simp [processJob, hf]
  · simp [processJob, hf]
  · simp [processJob, hf]
  · rw [runBatches_eq fetch jobs batchSize h0, processBatch_rows]
  · rw [runBatches_eq fetch jobs batchSize h0, processBatch_errors]

/-- Witness for C2 with the two-job list `[jobA, jobBad]` at batch size 1
(two batches): the failed job contributes nothing and logs to its own
destination, while the aggregate still carries jobA's row. -/
theorem processBatch_failed_job_isolated_witness :
    (0 < 1 ∧ jobBad ∈ [jobA, jobBad] ∧ fetchW jobBad = Except.error "boom")
    ∧ ((processJob fetchW jobBad).rows = []
    ∧ (processJob fetchW jobBad).errors = 1
    ∧ (processJob fetchW jobBad).logs
        = [LogEvent.sheetAppend jobBad.dId "boom"]
    ∧ (runBatches fetchW [jobA, jobBad] 1).rows
        = (([jobA, jobBad]).map fun i => (processJob fetchW i).rows).flatten
    ∧ (runBatches fetchW [jobA, jobBad] 1).errors
        = (([jobA, jobBad]).map fun i => (processJob fetchW i).errors).sum) :=
  ⟨⟨by decide, by simp, rfl⟩,
    processBatch_failed_job_isolated fetchW [jobA, jobBad] 1 (by decide) jobBad
      (by simp) "boom" rfl⟩

/-- C5: when a job's fetch succeeds with a non-empty row set, each of its
contributed rows is the fetched row with the job's provenance URL appended
as the last cell, so the contribution count equals the fetched row count and
every contributed row's last cell is the job's tag; and the aggregate rows
are exactly the per-job contributions in job order, so no row is attributed
to another job's tag. -/
theorem processBatch_provenance
    (fetch : Job → Except String (List Row)) (batch : List Job)
    (hok : ∀ i ∈ batch, ∃ rs, fetch i = Except.ok rs)
    (j : Job) (hj : j ∈ batch) (rows : List Row)
    (hf : fetch j = Except.ok rows) (hne : rows ≠ []) :
    (processJob fetch j).rows
        = rows.map (fun r => r ++ [Cell.str (sourceUrl j)])
    ∧ (processJob fetch j).rows.length = rows.length
    ∧ (∀ r ∈ (processJob fetch j).rows,
        r.getLast? = some (Cell.str (sourceUrl j)))
    ∧ (processBatch fetch batch).rows
        = (batch.map fun i => (processJob fetch i).rows).flatten := by
  have hlen : ¬rows.length = 0 := by
    simpa [List.length_eq_zero] using hne
  have hrows : (processJob fetch j).rows
      = rows.map (fun r => r ++ [Cell.str (sourceUrl j)]) := by
    simp [processJob, hf, hlen]
  refine ⟨hrows, ?_, ?_, processBatch_rows fetch batch⟩
  · rw [hrows, List.length_map]
  · rw [hrows]
    intro r hr
    obtain ⟨r₀, _, rfl⟩ := List.mem_map.mp hr
    rw [List.getLast?_concat]

/-- Witness for C5 with the single healthy job `jobA`. -/
theorem processBatch_provenance_witness :
    ((∀ i ∈ [jobA], ∃ rs, fetchW i = Except.ok rs)
      ∧ jobA ∈ [jobA]
      ∧ fetchW jobA = Except.ok [[Cell.num 7]]
      ∧ ([[Cell.num 7]] : List Row) ≠ [])
    ∧ ((processJob fetchW jobA).rows
        = ([[Cell.num 7]] : List Row).map
            (fun r => r ++ [Cell.str (sourceUrl jobA)])
    ∧ (processJob fetchW jobA).rows.length = ([[Cell.num 7]] : List Row).length
    ∧ (∀ r ∈ (processJob fetchW jobA).rows,
        r.getLast? = some (Cell.str (sourceUrl jobA)))
    ∧ (processBatch fetchW [jobA]).rows
        = (([jobA]).map fun i => (processJob fetchW i).rows).flatten) :=
  ⟨⟨fun i hi => ⟨[[Cell.num 7]], by fin_cases hi <;> rfl⟩, by simp, rfl,
      by decide⟩,
    processBatch_provenance fetchW [jobA]
      (fun i hi => ⟨[[Cell.num 7]], by fin_cases hi <;> rfl⟩)
      jobA (by simp) [[Cell.num 7]] rfl (by decide)⟩

/-- C8: in the index.js `run`, the aggregate write's destination spreadsheet
id and range are `lastRow[2]` and `lastRow[3]` of the last configuration
row, whatever rows precede it. The part_001 variant contradicts this: its
`run` destructures positions 4 and 5, which on a four-column configuration
row (range C2:F yields at most four cells) are both `undefined` — on the
concrete row `["src", "Sheet1!A1:B2", "dst", "DB!A2:T"]` it selects
`(undefined, undefined)` instead of the destination fields `"dst"`,
`"DB!A2:T"`. -/
theorem run_destination_from_last_config_row
    (fetch : Job → Except String (List Row)) (pre : List (List String))
    (lastRow : List String) (batchSize chunkSize : Nat) :
    (IndexJs.run fetch (pre ++ [lastRow]) batchSize chunkSize).writeTarget
        = some (lastRow.get? 2, lastRow.get? 3)
    ∧ Part001.runWriteTarget (pre ++ [lastRow])
        = some (lastRow.get? 4, lastRow.get? 5)
    ∧ Part001.runWriteTarget [["src", "Sheet1!A1:B2", "dst", "DB!A2:T"]]
        = some (none, none)
    ∧ Part001.runWriteTarget [["src", "Sheet1!A1:B2", "dst", "DB!A2:T"]]
        ≠ some (some "dst", some "DB!A2:T") := by
  have hlast : (pre ++ [lastRow]).getLast? = some lastRow :=
    List.getLast?_concat _
  refine ⟨?_, ?_, rfl, by decide⟩
  · unfold IndexJs.run
    rw [hlast]
  · unfold Part001.runWriteTarget
    rw [hlast]

